import Mathlib

/-!
Verification of the inventory-simulator core: a shallow embedding of
`src/inventory_simulator` (config validation, `utils.distribute_items_randomly`,
`Simulator.step`, `Observer.observe`, `SimulationRunner.run`) together with
proofs of the specified invariants: conservation, capacity, leak-then-trap
monotonicity, Kalman gain/covariance bounds, round-robin completeness,
staleness dynamics, initial-distribution correctness, determinism and
configuration-error handling.

The seeded generator `np.random.default_rng(seed)` is modelled as an abstract
deterministic stream of draws (`Gen`), consumed at an advancing position;
every concrete seed determines one such stream, so quantifying over all
streams covers all seeds and all movement probabilities.
-/

namespace InventorySim

/-- Direction of a single item movement ('left' or 'right'). -/
inductive Direction where
  | left
  | right
deriving DecidableEq, Repr

/-- Behavior mode for shelf 0, `SimulatorConfig.shelf_0_mode`. -/
inductive Mode where
  | normal
  | leak_then_trap
deriving DecidableEq, Repr

/-- The validated configuration consumed by the core
(`config.SimulatorConfig` after `validate` has passed, hence `Nat` fields). -/
structure SimulatorConfig where
  num_shelves : Nat
  shelf_capacity : Nat
  total_items : Nat
  unobserved_shelf_id : Nat
  movement_probability : ℚ
  shelf_0_mode : Mode
  trap_start_step : Nat
  process_noise_q : ℚ
deriving DecidableEq, Repr

/-- The constraints `SimulatorConfig.validate` enforces. -/
def SimulatorConfig.Valid (c : SimulatorConfig) : Prop :=
  0 < c.num_shelves ∧ 0 < c.shelf_capacity ∧
    c.total_items ≤ c.num_shelves * c.shelf_capacity ∧
    c.unobserved_shelf_id < c.num_shelves ∧
    0 ≤ c.movement_probability ∧ c.movement_probability ≤ 1 ∧
    0 ≤ c.process_noise_q

instance (c : SimulatorConfig) : Decidable c.Valid := by
  unfold SimulatorConfig.Valid; infer_instance

/-- Abstract model of one `np.random.default_rng(seed)` stream: deterministic
draw functions indexed by the number of draws consumed so far.  `binom p n`
is the value of `rng.binomial(n, movement_probability)` at position `p`,
`dir p` the value of `rng.choice(['left','right'])`, and `pick p` the value
of `rng.integers(0, num_shelves)` used by the initial distribution (which
builds its own generator from the same seed, hence its own position counter). -/
structure Gen where
  binom : Nat → Nat → Nat
  dir : Nat → Direction
  pick : Nat → Nat

/-! ### utils.distribute_items_randomly -/

/-- Loop state of the random-placement phase of `distribute_items_randomly`. -/
structure PlaceSt where
  distribution : List Nat
  items_placed : Nat
  pos : Nat
deriving Repr

/-- The `while items_placed < total_items and attempts < max_attempts` loop of
`distribute_items_randomly`; the fuel argument is the remaining attempt budget. -/
def placeAttempts (gen : Gen) (shelf_capacity total_items : Nat) :
    Nat → PlaceSt → PlaceSt
  | 0, s => s
  | fuel + 1, s =>
    if s.items_placed < total_items then
      if s.distribution.getD (gen.pick s.pos) 0 < shelf_capacity then
        placeAttempts gen shelf_capacity total_items fuel
          { distribution := s.distribution.set (gen.pick s.pos)
              (s.distribution.getD (gen.pick s.pos) 0 + 1),
            items_placed := s.items_placed + 1, pos := s.pos + 1 }
      else
        placeAttempts gen shelf_capacity total_items fuel
          { s with pos := s.pos + 1 }
    else s

/-- The deterministic left-to-right fallback fill of
`distribute_items_randomly`: fill each shelf up to capacity until
`remaining` further items have been placed. -/
def fillSequential (shelf_capacity : Nat) : List Nat → Nat → List Nat
  | [], _ => []
  | q :: rest, remaining =>
    (q + min remaining (shelf_capacity - q)) ::
      fillSequential shelf_capacity rest
        (remaining - min remaining (shelf_capacity - q))

/-- `utils.distribute_items_randomly`: random placement up to
`total_items * 100` attempts, then the sequential fallback. -/
def distribute_items_randomly (gen : Gen)
    (num_shelves total_items shelf_capacity : Nat) : List Nat :=
  if total_items = 0 then List.replicate num_shelves 0
  else if (placeAttempts gen shelf_capacity total_items (total_items * 100)
      { distribution := List.replicate num_shelves 0, items_placed := 0,
        pos := 0 }).items_placed < total_items then
    fillSequential shelf_capacity
      (placeAttempts gen shelf_capacity total_items (total_items * 100)
        { distribution := List.replicate num_shelves 0, items_placed := 0,
          pos := 0 }).distribution
      (total_items - (placeAttempts gen shelf_capacity total_items
        (total_items * 100)
        { distribution := List.replicate num_shelves 0, items_placed := 0,
          pos := 0 }).items_placed)
  else (placeAttempts gen shelf_capacity total_items (total_items * 100)
    { distribution := List.replicate num_shelves 0, items_placed := 0,
      pos := 0 }).distribution

/-- `utils.calculate_neighbor`: circular neighbor index
(`(shelf_id ± 1) % num_shelves`, with Python semantics for the `-1` case). -/
def calculate_neighbor (shelf_id num_shelves : Nat) (direction : Direction) : Nat :=
  match direction with
  | .right => (shelf_id + 1) % num_shelves
  | .left => (shelf_id + num_shelves - 1) % num_shelves

/-! ### Simulator -/

/-- `types.MovementEvent`. -/
structure MovementEvent where
  step : Nat
  source_shelf : Nat
  destination_shelf : Nat
  direction : Direction
deriving DecidableEq, Repr

/-- State of `Simulator`: the `_inventory` quantity column (indexed by
shelf id), `_current_step`, `_trap_active`, and the position reached in the
movement generator stream. -/
structure SimState where
  inv : List Nat
  current_step : Nat
  trap_active : Bool
  pos : Nat
deriving DecidableEq, Repr

/-- `Simulator.__init__`: distribute the items (the distribution builds a
fresh generator from the same seed, so it reads `gen.pick` from position 0,
independent of the movement draws). -/
def Simulator.init (cfg : SimulatorConfig) (gen : Gen) : SimState :=
  { inv := distribute_items_randomly gen cfg.num_shelves cfg.total_items
      cfg.shelf_capacity,
    current_step := 0, trap_active := false, pos := 0 }

/-- Intra-step state threaded through the per-shelf movement loops of
`Simulator.step`. -/
structure StepSt where
  inv : List Nat
  pos : Nat
  total_movements : Nat
  last_source : Nat
  last_dest : Nat
  last_direction : Direction
deriving Repr

/-- One item-movement attempt of `Simulator.step`: if the destination's
current quantity is below capacity, decrement the source and increment the
destination; otherwise the item is blocked (`none`). -/
def attemptMove (cfg : SimulatorConfig) (inv : List Nat)
    (shelf_id dest_shelf_id : Nat) : Option (List Nat) :=
  let dest_qty := inv.getD dest_shelf_id 0
  if dest_qty < cfg.shelf_capacity then
    let inv1 := inv.set shelf_id (inv.getD shelf_id 0 - 1)
    some (inv1.set dest_shelf_id (inv1.getD dest_shelf_id 0 + 1))
  else none

/-- The `for _ in range(num_items_to_move)` loop of `Simulator.step` for one
shelf: stop early if the shelf has run empty, otherwise draw a direction and
attempt the move against the live (intra-tick) inventory. -/
def moveLoop (cfg : SimulatorConfig) (gen : Gen) (shelf_id : Nat) :
    Nat → StepSt → StepSt
  | 0, s => s
  | fuel + 1, s =>
    if s.inv.getD shelf_id 0 = 0 then s
    else
      match attemptMove cfg s.inv shelf_id
          (calculate_neighbor shelf_id cfg.num_shelves (gen.dir s.pos)) with
      | some inv2 =>
        moveLoop cfg gen shelf_id fuel
          { inv := inv2, pos := s.pos + 1,
            total_movements := s.total_movements + 1,
            last_source := shelf_id,
            last_dest := calculate_neighbor shelf_id cfg.num_shelves
              (gen.dir s.pos),
            last_direction := gen.dir s.pos }
      | none => moveLoop cfg gen shelf_id fuel { s with pos := s.pos + 1 }

/-- The body of the `for shelf_id in range(num_shelves)` loop of
`Simulator.step`: skip empty shelves (no draw consumed), otherwise draw a
binomial departure count from the pre-tick snapshot and run the move loop. -/
def processShelf (cfg : SimulatorConfig) (gen : Gen) (snapshot : List Nat)
    (s : StepSt) (shelf_id : Nat) : StepSt :=
  if snapshot.getD shelf_id 0 = 0 then s
  else if gen.binom s.pos (snapshot.getD shelf_id 0) = 0 then
    { s with pos := s.pos + 1 }
  else
    moveLoop cfg gen shelf_id (gen.binom s.pos (snapshot.getD shelf_id 0))
      { s with pos := s.pos + 1 }

/-- The `for shelf_id in range(num_shelves)` loop of `Simulator.step`:
process every shelf in id order against the pre-tick `snapshot`, skipping
shelf 0 as a movement source when the trap is active. -/
def stepFold (cfg : SimulatorConfig) (gen : Gen) (trap_active : Bool)
    (snapshot : List Nat) (s0 : StepSt) : StepSt :=
  (List.range cfg.num_shelves).foldl
    (fun s shelf_id =>
      if shelf_id = 0 ∧ trap_active = true then s
      else processShelf cfg gen snapshot s shelf_id) s0

/-- `Simulator.step`: activate the trap if due, snapshot quantities, process
every shelf (skipping shelf 0 as a source while the trap is active), emit the
tick's `MovementEvent`, and advance the step counter. -/
def Simulator.step (cfg : SimulatorConfig) (gen : Gen) (st : SimState) :
    SimState × MovementEvent :=
  let trap_active : Bool := st.trap_active ||
    decide (cfg.shelf_0_mode = Mode.leak_then_trap ∧
      cfg.trap_start_step ≤ st.current_step)
  let final := stepFold cfg gen trap_active st.inv
    { inv := st.inv, pos := st.pos, total_movements := 0,
      last_source := 0, last_dest := 0, last_direction := Direction.right }
  let event : MovementEvent :=
    if 0 < final.total_movements then
      { step := st.current_step, source_shelf := final.last_source,
        destination_shelf := final.last_dest,
        direction := final.last_direction }
    else
      { step := st.current_step, source_shelf := 0, destination_shelf := 0,
        direction := Direction.right }
  ({ inv := final.inv, current_step := st.current_step + 1,
     trap_active := trap_active, pos := final.pos }, event)

/-- `Simulator.get_quantity`. -/
def Simulator.get_quantity (st : SimState) (shelf_id : Nat) : Nat :=
  st.inv.getD shelf_id 0

/-- Simulator ground truth after `n` calls to `Simulator.step`, starting from
`Simulator.init`. -/
def simAfter (cfg : SimulatorConfig) (gen : Gen) : Nat → SimState
  | 0 => Simulator.init cfg gen
  | n + 1 => (Simulator.step cfg gen (simAfter cfg gen n)).1

/-! ### Observer -/

/-- `types.ObservationEvent`. -/
structure ObservationEvent where
  step : Nat
  observed_shelf : Nat
  true_quantity : Nat
  previous_estimate : Nat
deriving DecidableEq, Repr

/-- One row of the Observer's `_estimates` table:
(`shelf_id`, `estimated_quantity`, `last_observed_step`, `uncertainty`).
The `uncertainty` column is the staleness counter. -/
structure BeliefRecord where
  shelf_id : Nat
  estimated_quantity : Nat
  last_observed_step : Int
  uncertainty : Nat
deriving DecidableEq, Repr

/-- State of `Observer`: the `_estimates` table, the round-robin cursor
`_current_observation_index`, and the Kalman pair `(_kf_state, _kf_covariance)`. -/
structure ObsState where
  estimates : List BeliefRecord
  current_observation_index : Nat
  kf_state : ℚ
  kf_covariance : ℚ
deriving DecidableEq, Repr

/-- `Observer._observable_shelves`: every shelf id except the unobserved one. -/
def observableShelves (cfg : SimulatorConfig) : List Nat :=
  (List.range cfg.num_shelves).filter
    (fun shelf_id => shelf_id != cfg.unobserved_shelf_id)

/-- The `shelf_ids_to_track` list of `Observer.__init__` (an explicit
`range(1, num_shelves)` when the unobserved shelf is 0, a filter otherwise). -/
def shelfIdsToTrack (cfg : SimulatorConfig) : List Nat :=
  if cfg.unobserved_shelf_id = 0 then List.range' 1 (cfg.num_shelves - 1)
  else (List.range cfg.num_shelves).filter
    (fun shelf_id => shelf_id != cfg.unobserved_shelf_id)

/-- `Observer.__init__`: zeroed belief rows, cursor 0, `x = 0`, `P = 1000`. -/
def Observer.init (cfg : SimulatorConfig) : ObsState :=
  { estimates := (shelfIdsToTrack cfg).map (fun shelf_id =>
      { shelf_id := shelf_id, estimated_quantity := 0,
        last_observed_step := -1, uncertainty := 0 }),
    current_observation_index := 0,
    kf_state := 0,
    kf_covariance := 1000 }

/-- Measurement `z` of the scalar Kalman filter: the sum of the estimated
quantities over the tracked shelves. -/
def measurementZ (estimates : List BeliefRecord) : ℚ :=
  (estimates.map (fun r => (r.estimated_quantity : ℚ))).sum

/-- Measurement noise `R = 10.0 + 0.5 * sum(uncertainty)`. -/
def measurementR (estimates : List BeliefRecord) : ℚ :=
  10 + (1 / 2) * (estimates.map (fun r => (r.uncertainty : ℚ))).sum

/-- One predict/update cycle of the scalar Kalman filter of
`Observer.observe`; returns `(K, x', P')`. -/
def kfStep (process_noise_q x P z R : ℚ) : ℚ × ℚ × ℚ :=
  let x_pred := x
  let P_pred := P + process_noise_q
  let y := z - x_pred
  let S := P_pred + R
  let K := P_pred / S
  (K, x_pred + K * y, (1 - K) * P_pred)

/-- The belief-table update of `Observer.observe`: the observed shelf's row is
refreshed (`estimated_quantity = true`, `last_observed_step = step`,
`uncertainty = 0`) and every other row's `uncertainty` is incremented by 1. -/
def updateEstimates (estimates : List BeliefRecord)
    (observed_shelf_id true_quantity : Nat) (current_step : Nat) :
    List BeliefRecord :=
  estimates.map (fun r =>
    if r.shelf_id = observed_shelf_id then
      { r with estimated_quantity := true_quantity,
               last_observed_step := (current_step : Int), uncertainty := 0 }
    else { r with uncertainty := r.uncertainty + 1 })

/-- `Observer.observe`: read the true quantity of the shelf at the round-robin
cursor, update the belief table, run one Kalman cycle on the composite
measurement, emit the `ObservationEvent`, and advance the cursor. -/
def Observer.observe (cfg : SimulatorConfig) (sim : SimState)
    (current_step : Nat) (obs : ObsState) : ObsState × ObservationEvent :=
  let observed_shelf_id :=
    (observableShelves cfg).getD obs.current_observation_index 0
  let true_quantity := Simulator.get_quantity sim observed_shelf_id
  let previous_estimate :=
    ((obs.estimates.find? (fun r => r.shelf_id == observed_shelf_id)).map
      (fun r => r.estimated_quantity)).getD 0
  let estimates :=
    updateEstimates obs.estimates observed_shelf_id true_quantity current_step
  let kf := kfStep cfg.process_noise_q obs.kf_state obs.kf_covariance
    (measurementZ estimates) (measurementR estimates)
  let event : ObservationEvent :=
    { step := current_step, observed_shelf := observed_shelf_id,
      true_quantity := true_quantity, previous_estimate := previous_estimate }
  ({ estimates := estimates,
     current_observation_index :=
       (obs.current_observation_index + 1) % (observableShelves cfg).length,
     kf_state := kf.2.1, kf_covariance := kf.2.2 }, event)

/-- Observer state after `t` observations, fed by an arbitrary stream of
simulator states (`sims t` is the state read at call `t`, which is passed
`current_step = t` as in `SimulationRunner.run`). -/
def obsAfter (cfg : SimulatorConfig) (sims : Nat → SimState) : Nat → ObsState
  | 0 => Observer.init cfg
  | t + 1 => (Observer.observe cfg (sims t) t (obsAfter cfg sims t)).1

/-- The shelf id reported by the `t`-th call to `Observer.observe`. -/
def observedShelfAt (cfg : SimulatorConfig) (sims : Nat → SimState)
    (t : Nat) : Nat :=
  (Observer.observe cfg (sims t) t (obsAfter cfg sims t)).2.observed_shelf

/-- The Kalman gain `K` computed inside the `(t+1)`-st call to
`Observer.observe`: `kfStep` applied to the prior filter state and to the
measurement `z` and noise `R` formed from the just-updated belief table
(which is exactly `(obsAfter cfg sims (t+1)).estimates`). -/
def observeGainAt (cfg : SimulatorConfig) (sims : Nat → SimState)
    (t : Nat) : ℚ :=
  (kfStep cfg.process_noise_q (obsAfter cfg sims t).kf_state
    (obsAfter cfg sims t).kf_covariance
    (measurementZ (obsAfter cfg sims (t + 1)).estimates)
    (measurementR (obsAfter cfg sims (t + 1)).estimates)).1

/-! ### SimulationRunner -/

/-- An entry of the runner's `events_log`. -/
inductive Event where
  | movement : MovementEvent → Event
  | observation : ObservationEvent → Event
deriving DecidableEq, Repr

/-- Combined state of `SimulationRunner` (its `simulator` and `observer`). -/
structure RunnerState where
  sim : SimState
  obs : ObsState
deriving DecidableEq, Repr

/-- `types.SimulationResults`, restricted to the final states and the event
log (the analytics history is external arithmetic over these). -/
structure RunResults where
  final_ground_truth : List Nat
  final_estimates : List BeliefRecord
  events_log : List Event
deriving DecidableEq, Repr

/-- `SimulationRunner.__init__`: a fresh `Simulator` (from config and seed)
and a fresh `Observer` (from config only). -/
def SimulationRunner.init (cfg : SimulatorConfig) (gen : Gen) : RunnerState :=
  { sim := Simulator.init cfg gen, obs := Observer.init cfg }

/-- One iteration of the main loop of `SimulationRunner.run`: a simulator
step followed by an observation, both appended to the event log. -/
def runStep (cfg : SimulatorConfig) (gen : Gen) (step : Nat)
    (st : RunnerState) : RunnerState × List Event :=
  let sim_result := Simulator.step cfg gen st.sim
  let obs_result := Observer.observe cfg sim_result.1 step st.obs
  ({ sim := sim_result.1, obs := obs_result.1 },
   [Event.movement sim_result.2, Event.observation obs_result.2])

/-- The `for step in range(num_steps)` loop of `SimulationRunner.run`. -/
def runAux (cfg : SimulatorConfig) (gen : Gen) :
    Nat → Nat → RunnerState → RunnerState × List Event
  | 0, _, st => (st, [])
  | n + 1, step, st =>
    let r1 := runStep cfg gen step st
    let r2 := runAux cfg gen n (step + 1) r1.1
    (r2.1, r1.2 ++ r2.2)

/-- `SimulationRunner.run`: run `num_steps` iterations from freshly
constructed components, returning the final states and the event log. -/
def SimulationRunner.run (cfg : SimulatorConfig) (gen : Gen)
    (num_steps : Nat) : RunResults :=
  let r := runAux cfg gen num_steps 0 (SimulationRunner.init cfg gen)
  { final_ground_truth := r.1.sim.inv,
    final_estimates := r.1.obs.estimates,
    events_log := r.2 }

/-! ### Raw configuration validation (`config.SimulatorConfig.validate`) -/

/-- A raw, not yet validated `config.SimulatorConfig` (fields as the Python
dataclass receives them: signed integers, rationals for the float fields, a
free-form string for the mode). -/
structure RawConfig where
  num_shelves : Int
  shelf_capacity : Int
  total_items : Int
  unobserved_shelf_id : Int
  movement_probability : ℚ
  shelf_0_mode : String
  trap_start_step : Int
  process_noise_q : ℚ
deriving DecidableEq, Repr

/-- `config.SimulatorConfig.validate`, run by `__post_init__`: the first
violated constraint raises a `ValueError` naming the constraint and the
offending value; an `Except.error` here. -/
def RawConfig.validate (c : RawConfig) : Except String Unit :=
  if c.num_shelves ≤ 0 then
    Except.error ("num_shelves must be positive, got " ++ toString c.num_shelves)
  else if c.shelf_capacity ≤ 0 then
    Except.error ("shelf_capacity must be positive, got " ++
      toString c.shelf_capacity)
  else if c.total_items < 0 then
    Except.error ("total_items cannot be negative, got " ++
      toString c.total_items)
  else if c.num_shelves * c.shelf_capacity < c.total_items then
    Except.error ("total_items (" ++ toString c.total_items ++
      ") cannot exceed total system capacity (" ++
      toString (c.num_shelves * c.shelf_capacity) ++ ")")
  else if ¬ (0 ≤ c.unobserved_shelf_id ∧ c.unobserved_shelf_id < c.num_shelves) then
    Except.error ("unobserved_shelf_id must be between 0 and " ++
      toString (c.num_shelves - 1) ++ ", got " ++ toString c.unobserved_shelf_id)
  else if ¬ (0 ≤ c.movement_probability ∧ c.movement_probability ≤ 1) then
    Except.error ("movement_probability must be between 0 and 1, got " ++
      toString c.movement_probability)
  else if c.shelf_0_mode ≠ "normal" ∧ c.shelf_0_mode ≠ "leak_then_trap" then
    Except.error ("shelf_0_mode must be normal or leak_then_trap, got " ++
      c.shelf_0_mode)
  else if c.trap_start_step < 0 then
    Except.error ("trap_start_step must be non-negative, got " ++
      toString c.trap_start_step)
  else if c.process_noise_q < 0 then
    Except.error ("process_noise_q must be non-negative, got " ++
      toString c.process_noise_q)
  else Except.ok ()

/-! ### Concrete instances (used to evaluate the theorems on closed inputs) -/

/-- A degenerate generator stream: every binomial draw is 0, every direction
draw is right, every shelf pick is shelf 0. -/
def genZero : Gen :=
  { binom := fun _ _ => 0, dir := fun _ => Direction.right, pick := fun _ => 0 }

/-- A generator stream whose binomial draws are all 1, directions all right,
and shelf picks all shelf 1. -/
def genOne : Gen :=
  { binom := fun _ _ => 1, dir := fun _ => Direction.right, pick := fun _ => 1 }

/-- A small valid configuration in normal mode. -/
def cfgSmall : SimulatorConfig :=
  { num_shelves := 3, shelf_capacity := 5, total_items := 7,
    unobserved_shelf_id := 0, movement_probability := 1 / 2,
    shelf_0_mode := Mode.normal, trap_start_step := 150,
    process_noise_q := 1 / 10 }

/-- A leak-then-trap configuration whose unobserved shelf is 1, not 0, with
the trap active from the very first step. -/
def cfgTrap : SimulatorConfig :=
  { num_shelves := 2, shelf_capacity := 5, total_items := 2,
    unobserved_shelf_id := 1, movement_probability := 1 / 2,
    shelf_0_mode := Mode.leak_then_trap, trap_start_step := 0,
    process_noise_q := 0 }

/-- The 10-shelf configuration of the round-robin example scenario (hidden
shelf id 0). -/
def cfgTen : SimulatorConfig :=
  { num_shelves := 10, shelf_capacity := 50, total_items := 100,
    unobserved_shelf_id := 0, movement_probability := 1 / 100,
    shelf_0_mode := Mode.normal, trap_start_step := 150,
    process_noise_q := 1 / 10 }

/-- An empty 10-shelf ground truth used as the observation source in the
round-robin example. -/
def simTen : SimState :=
  { inv := List.replicate 10 0, current_step := 0, trap_active := false,
    pos := 0 }

/-- A raw configuration whose `total_items` exceeds the total capacity. -/
def rawOverfull : RawConfig :=
  { num_shelves := 2, shelf_capacity := 3, total_items := 7,
    unobserved_shelf_id := 0, movement_probability := 0,
    shelf_0_mode := "normal", trap_start_step := 0, process_noise_q := 0 }

/-- A fully valid raw configuration. -/
def rawValid : RawConfig :=
  { num_shelves := 20, shelf_capacity := 50, total_items := 300,
    unobserved_shelf_id := 0, movement_probability := 1 / 100,
    shelf_0_mode := "normal", trap_start_step := 150,
    process_noise_q := 1 / 10 }

/-! ### List helper lemmas -/

theorem getD_set_ne (l : List Nat) (i j v : Nat) (h : i ≠ j) :
    (l.set i v).getD j 0 = l.getD j 0 := by
  simp [List.getD_eq_getElem?_getD, List.getElem?_set_ne h]

theorem getD_set_self (l : List Nat) (i v : Nat) (h : i < l.length) :
    (l.set i v).getD i 0 = v := by
  simp [List.getD_eq_getElem?_getD, List.getElem?_set_self, h]

theorem sum_set_getD (l : List Nat) (i v : Nat) (h : i < l.length) :
    (l.set i v).sum + l.getD i 0 = l.sum + v := by
  induction l generalizing i with
  | nil => simp at h
  | cons a t ih =>
    cases i with
    | zero => simp [List.set]; omega
    | succ i =>
      have hi : i < t.length := by simpa using h
      have := ih i hi
      simp only [List.set, List.sum_cons, List.getD_cons_succ]
      omega

theorem getD_le_of_forall_le (l : List Nat) (cap i : Nat)
    (h : ∀ x ∈ l, x ≤ cap) : l.getD i 0 ≤ cap := by
  by_cases hi : i < l.length
  · rw [List.getD_eq_getElem l 0 hi]
    exact h _ (List.getElem_mem hi)
  · rw [List.getD_eq_default l 0 (by omega)]
    exact Nat.zero_le cap

theorem getD_zero_le_sum (l : List Nat) (i : Nat) : l.getD i 0 ≤ l.sum := by
  by_cases hi : i < l.length
  · rw [List.getD_eq_getElem l 0 hi]
    exact List.single_le_sum (fun x _ => Nat.zero_le x) _ (List.getElem_mem hi)
  · rw [List.getD_eq_default l 0 (by omega)]
    exact Nat.zero_le _

/-! ### attemptMove lemmas -/

theorem attemptMove_sum {cfg : SimulatorConfig} {inv inv2 : List Nat}
    {shelf_id dest_shelf_id : Nat}
    (h : attemptMove cfg inv shelf_id dest_shelf_id = some inv2)
    (hs : shelf_id < inv.length) (hd : dest_shelf_id < inv.length)
    (hq : inv.getD shelf_id 0 ≠ 0) :
    inv2.sum = inv.sum ∧ inv2.length = inv.length := by
  unfold attemptMove at h
  by_cases hc : inv.getD dest_shelf_id 0 < cfg.shelf_capacity
  · simp only [hc, if_pos, Option.some.injEq] at h
    subst h
    set inv1 := inv.set shelf_id (inv.getD shelf_id 0 - 1) with hinv1
    have hlen1 : inv1.length = inv.length := List.length_set inv _ _
    have hd1 : dest_shelf_id < inv1.length := by omega
    have e1 : inv1.sum + inv.getD shelf_id 0 =
        inv.sum + (inv.getD shelf_id 0 - 1) := sum_set_getD inv _ _ hs
    have e2 : (inv1.set dest_shelf_id (inv1.getD dest_shelf_id 0 + 1)).sum
        + inv1.getD dest_shelf_id 0 =
        inv1.sum + (inv1.getD dest_shelf_id 0 + 1) := sum_set_getD inv1 _ _ hd1
    have hlen2 : (inv1.set dest_shelf_id (inv1.getD dest_shelf_id 0 + 1)).length
        = inv1.length := List.length_set inv1 _ _
    exact ⟨by omega, by omega⟩
  · simp only [List.getD_eq_getElem?_getD] at hc
    simp [hc] at h

theorem attemptMove_cap {cfg : SimulatorConfig} {inv inv2 : List Nat}
    {shelf_id dest_shelf_id : Nat}
    (h : attemptMove cfg inv shelf_id dest_shelf_id = some inv2)
    (hcap : ∀ x ∈ inv, x ≤ cfg.shelf_capacity) :
    ∀ x ∈ inv2, x ≤ cfg.shelf_capacity := by
  unfold attemptMove at h
  by_cases hc : inv.getD dest_shelf_id 0 < cfg.shelf_capacity
  · simp only [hc, if_pos, Option.some.injEq] at h
    subst h
    set inv1 := inv.set shelf_id (inv.getD shelf_id 0 - 1) with hinv1
    have hcap1 : ∀ x ∈ inv1, x ≤ cfg.shelf_capacity := by
      intro x hx
      rcases List.mem_or_eq_of_mem_set hx with hx' | rfl
      · exact hcap x hx'
      · have := getD_le_of_forall_le inv cfg.shelf_capacity shelf_id hcap
        omega
    intro x hx
    rcases List.mem_or_eq_of_mem_set hx with hx' | rfl
    · exact hcap1 x hx'
    · by_cases hij : shelf_id = dest_shelf_id
      · subst hij
        by_cases hlt : shelf_id < inv.length
        · rw [hinv1, getD_set_self inv _ _ hlt]
          have := getD_le_of_forall_le inv cfg.shelf_capacity shelf_id hcap
          omega
        · have : inv1.getD shelf_id 0 = 0 := by
            rw [List.getD_eq_default]
            rw [hinv1, List.length_set]; omega
          omega
      · rw [hinv1, getD_set_ne inv _ _ _ hij]
        omega
  · simp only [List.getD_eq_getElem?_getD] at hc
    simp [hc] at h

theorem attemptMove_getD_zero_mono {cfg : SimulatorConfig} {inv inv2 : List Nat}
    {shelf_id dest_shelf_id : Nat}
    (h : attemptMove cfg inv shelf_id dest_shelf_id = some inv2)
    (hs : shelf_id ≠ 0) :
    inv.getD 0 0 ≤ inv2.getD 0 0 := by
  unfold attemptMove at h
  by_cases hc : inv.getD dest_shelf_id 0 < cfg.shelf_capacity
  · simp only [hc, if_pos, Option.some.injEq] at h
    subst h
    set inv1 := inv.set shelf_id (inv.getD shelf_id 0 - 1) with hinv1
    have hlen1 : inv1.length = inv.length := List.length_set inv _ _
    have h1 : inv1.getD 0 0 = inv.getD 0 0 := getD_set_ne inv _ _ _ hs
    by_cases hd0 : dest_shelf_id = 0
    · subst hd0
      by_cases hlt : 0 < inv1.length
      · rw [getD_set_self inv1 _ _ hlt]
        omega
      · have hnil : inv1 = [] := List.eq_nil_of_length_eq_zero (by omega)
        have hz : inv.getD 0 0 = 0 :=
          List.getD_eq_default inv 0 (by omega)
        rw [hnil]
        simp only [List.set_nil, List.getD_nil]
        omega
    · rw [getD_set_ne inv1 dest_shelf_id 0 _ hd0]
      omega
  · simp only [List.getD_eq_getElem?_getD] at hc
    simp [hc] at h

/-! ### moveLoop and processShelf invariants -/

theorem calculate_neighbor_lt (shelf_id : Nat) {num_shelves : Nat}
    (hn : 0 < num_shelves) (d : Direction) :
    calculate_neighbor shelf_id num_shelves d < num_shelves := by
  cases d <;> exact Nat.mod_lt _ hn

theorem moveLoop_sum_length (cfg : SimulatorConfig) (gen : Gen) (shelf_id : Nat)
    (hn : 0 < cfg.num_shelves) (hs : shelf_id < cfg.num_shelves) :
    ∀ fuel (s : StepSt), s.inv.length = cfg.num_shelves →
      (moveLoop cfg gen shelf_id fuel s).inv.length = cfg.num_shelves ∧
      (moveLoop cfg gen shelf_id fuel s).inv.sum = s.inv.sum
  | 0, s, hlen => ⟨hlen, rfl⟩
  | fuel + 1, s, hlen => by
    rw [moveLoop]
    split
    · exact ⟨hlen, rfl⟩
    next hz =>
      split
      next inv2 hM =>
        have hd := calculate_neighbor_lt shelf_id hn (gen.dir s.pos)
        have hsum := attemptMove_sum hM (by omega) (by omega) hz
        have hlen2 : inv2.length = cfg.num_shelves := hsum.2.trans hlen
        have ih := moveLoop_sum_length cfg gen shelf_id hn hs fuel
          { inv := inv2, pos := s.pos + 1,
            total_movements := s.total_movements + 1,
            last_source := shelf_id,
            last_dest := calculate_neighbor shelf_id cfg.num_shelves
              (gen.dir s.pos),
            last_direction := gen.dir s.pos } (by simpa using hlen2)
        exact ⟨ih.1, ih.2.trans hsum.1⟩
      next hM =>
        have ih := moveLoop_sum_length cfg gen shelf_id hn hs fuel
          { s with pos := s.pos + 1 } (by simpa using hlen)
        simpa using ih

theorem moveLoop_cap (cfg : SimulatorConfig) (gen : Gen) (shelf_id : Nat) :
    ∀ fuel (s : StepSt), (∀ x ∈ s.inv, x ≤ cfg.shelf_capacity) →
      ∀ x ∈ (moveLoop cfg gen shelf_id fuel s).inv, x ≤ cfg.shelf_capacity
  | 0, _, hcap => hcap
  | fuel + 1, s, hcap => by
    rw [moveLoop]
    split
    · exact hcap
    next hz =>
      split
      next inv2 hM =>
        exact moveLoop_cap cfg gen shelf_id fuel _
          (by simpa using attemptMove_cap hM hcap)
      next hM =>
        exact moveLoop_cap cfg gen shelf_id fuel _ (by simpa using hcap)

theorem moveLoop_getD_zero (cfg : SimulatorConfig) (gen : Gen) (shelf_id : Nat)
    (hs : shelf_id ≠ 0) :
    ∀ fuel (s : StepSt),
      s.inv.getD 0 0 ≤ (moveLoop cfg gen shelf_id fuel s).inv.getD 0 0
  | 0, _ => le_refl _
  | fuel + 1, s => by
    rw [moveLoop]
    split
    · exact le_refl _
    next hz =>
      split
      next inv2 hM =>
        exact le_trans (attemptMove_getD_zero_mono hM hs)
          (moveLoop_getD_zero cfg gen shelf_id hs fuel
            { inv := inv2, pos := s.pos + 1,
              total_movements := s.total_movements + 1,
              last_source := shelf_id,
              last_dest := calculate_neighbor shelf_id cfg.num_shelves
                (gen.dir s.pos),
              last_direction := gen.dir s.pos })
      next hM =>
        exact moveLoop_getD_zero cfg gen shelf_id hs fuel { s with pos := s.pos + 1 }

theorem processShelf_sum_length (cfg : SimulatorConfig) (gen : Gen)
    (snapshot : List Nat) (hn : 0 < cfg.num_shelves) (shelf_id : Nat)
    (hs : shelf_id < cfg.num_shelves) (s : StepSt)
    (hlen : s.inv.length = cfg.num_shelves) :
    (processShelf cfg gen snapshot s shelf_id).inv.length = cfg.num_shelves ∧
    (processShelf cfg gen snapshot s shelf_id).inv.sum = s.inv.sum := by
  unfold processShelf
  split
  · exact ⟨hlen, rfl⟩
  split
  · exact ⟨by simpa using hlen, rfl⟩
  · have h := moveLoop_sum_length cfg gen shelf_id hn hs
      (gen.binom s.pos (snapshot.getD shelf_id 0))
      { s with pos := s.pos + 1 } (by simpa using hlen)
    simpa using h

theorem processShelf_cap (cfg : SimulatorConfig) (gen : Gen)
    (snapshot : List Nat) (shelf_id : Nat) (s : StepSt)
    (hcap : ∀ x ∈ s.inv, x ≤ cfg.shelf_capacity) :
    ∀ x ∈ (processShelf cfg gen snapshot s shelf_id).inv,
      x ≤ cfg.shelf_capacity := by
  unfold processShelf
  split
  · exact hcap
  split
  · simpa using hcap
  · exact moveLoop_cap cfg gen shelf_id _ _ (by simpa using hcap)

theorem processShelf_getD_zero (cfg : SimulatorConfig) (gen : Gen)
    (snapshot : List Nat) (shelf_id : Nat) (hs : shelf_id ≠ 0) (s : StepSt) :
    s.inv.getD 0 0 ≤ (processShelf cfg gen snapshot s shelf_id).inv.getD 0 0 := by
  unfold processShelf
  split
  · exact le_refl _
  split
  · simp
  · exact le_trans (le_of_eq rfl)
      (moveLoop_getD_zero cfg gen shelf_id hs _ { s with pos := s.pos + 1 })

/-! ### stepFold and Simulator.step invariants -/

theorem foldShelves_sum_length (cfg : SimulatorConfig) (gen : Gen)
    (trap : Bool) (snapshot : List Nat) (hn : 0 < cfg.num_shelves) :
    ∀ (L : List Nat), (∀ i ∈ L, i < cfg.num_shelves) → ∀ (s : StepSt),
      s.inv.length = cfg.num_shelves →
      ((L.foldl (fun s shelf_id =>
          if shelf_id = 0 ∧ trap = true then s
          else processShelf cfg gen snapshot s shelf_id) s).inv.length =
        cfg.num_shelves ∧
       (L.foldl (fun s shelf_id =>
          if shelf_id = 0 ∧ trap = true then s
          else processShelf cfg gen snapshot s shelf_id) s).inv.sum = s.inv.sum)
  | [], _, s, hlen => ⟨hlen, rfl⟩
  | i :: L, hmem, s, hlen => by
    simp only [List.foldl_cons]
    by_cases hskip : i = 0 ∧ trap = true
    · rw [if_pos hskip]
      exact foldShelves_sum_length cfg gen trap snapshot hn L
        (fun j hj => hmem j (List.mem_cons_of_mem _ hj)) s hlen
    · rw [if_neg hskip]
      have hp := processShelf_sum_length cfg gen snapshot hn i
        (hmem i (List.mem_cons_self i L)) s hlen
      have ih := foldShelves_sum_length cfg gen trap snapshot hn L
        (fun j hj => hmem j (List.mem_cons_of_mem _ hj)) _ hp.1
      exact ⟨ih.1, ih.2.trans hp.2⟩

theorem foldShelves_cap (cfg : SimulatorConfig) (gen : Gen)
    (trap : Bool) (snapshot : List Nat) :
    ∀ (L : List Nat) (s : StepSt), (∀ x ∈ s.inv, x ≤ cfg.shelf_capacity) →
      ∀ x ∈ (L.foldl (fun s shelf_id =>
          if shelf_id = 0 ∧ trap = true then s
          else processShelf cfg gen snapshot s shelf_id) s).inv,
        x ≤ cfg.shelf_capacity
  | [], _, hcap => hcap
  | i :: L, s, hcap => by
    simp only [List.foldl_cons]
    by_cases hskip : i = 0 ∧ trap = true
    · rw [if_pos hskip]
      exact foldShelves_cap cfg gen trap snapshot L s hcap
    · rw [if_neg hskip]
      exact foldShelves_cap cfg gen trap snapshot L _
        (processShelf_cap cfg gen snapshot i s hcap)

theorem foldShelves_getD_zero (cfg : SimulatorConfig) (gen : Gen)
    (snapshot : List Nat) (trap : Bool) (htrap : trap = true) :
    ∀ (L : List Nat) (s : StepSt),
      s.inv.getD 0 0 ≤ (L.foldl (fun s shelf_id =>
          if shelf_id = 0 ∧ trap = true then s
          else processShelf cfg gen snapshot s shelf_id) s).inv.getD 0 0
  | [], _ => le_refl _
  | i :: L, s => by
    simp only [List.foldl_cons]
    by_cases hskip : i = 0 ∧ trap = true
    · rw [if_pos hskip]
      exact foldShelves_getD_zero cfg gen snapshot trap htrap L s
    · rw [if_neg hskip]
      have hi : i ≠ 0 := by
        intro h
        exact hskip ⟨h, htrap⟩
      exact le_trans (processShelf_getD_zero cfg gen snapshot i hi s)
        (foldShelves_getD_zero cfg gen snapshot trap htrap L _)

theorem step_inv_eq (cfg : SimulatorConfig) (gen : Gen) (st : SimState) :
    (Simulator.step cfg gen st).1.inv =
      (stepFold cfg gen
        (st.trap_active || decide (cfg.shelf_0_mode = Mode.leak_then_trap ∧
          cfg.trap_start_step ≤ st.current_step)) st.inv
        { inv := st.inv, pos := st.pos, total_movements := 0,
          last_source := 0, last_dest := 0,
          last_direction := Direction.right }).inv := rfl

theorem step_trap_eq (cfg : SimulatorConfig) (gen : Gen) (st : SimState) :
    (Simulator.step cfg gen st).1.trap_active =
      (st.trap_active || decide (cfg.shelf_0_mode = Mode.leak_then_trap ∧
        cfg.trap_start_step ≤ st.current_step)) := rfl

theorem step_current_step_eq (cfg : SimulatorConfig) (gen : Gen) (st : SimState) :
    (Simulator.step cfg gen st).1.current_step = st.current_step + 1 := rfl

theorem step_sum_length (cfg : SimulatorConfig) (gen : Gen) (st : SimState)
    (hn : 0 < cfg.num_shelves) (hlen : st.inv.length = cfg.num_shelves) :
    (Simulator.step cfg gen st).1.inv.length = cfg.num_shelves ∧
    (Simulator.step cfg gen st).1.inv.sum = st.inv.sum := by
  rw [step_inv_eq]
  exact foldShelves_sum_length cfg gen _ st.inv hn
    (List.range cfg.num_shelves) (fun i hi => List.mem_range.mp hi) _ hlen

theorem step_cap (cfg : SimulatorConfig) (gen : Gen) (st : SimState)
    (hcap : ∀ x ∈ st.inv, x ≤ cfg.shelf_capacity) :
    ∀ x ∈ (Simulator.step cfg gen st).1.inv, x ≤ cfg.shelf_capacity := by
  rw [step_inv_eq]
  exact foldShelves_cap cfg gen _ st.inv (List.range cfg.num_shelves) _ hcap

theorem step_getD_zero (cfg : SimulatorConfig) (gen : Gen) (st : SimState)
    (htrap : st.trap_active = true ∨
      (cfg.shelf_0_mode = Mode.leak_then_trap ∧
        cfg.trap_start_step ≤ st.current_step)) :
    st.inv.getD 0 0 ≤ (Simulator.step cfg gen st).1.inv.getD 0 0 := by
  rw [step_inv_eq]
  have hb : (st.trap_active || decide (cfg.shelf_0_mode = Mode.leak_then_trap ∧
      cfg.trap_start_step ≤ st.current_step)) = true := by
    rcases htrap with h | h
    · simp [h]
    · simp [h]
  exact foldShelves_getD_zero cfg gen st.inv _ hb (List.range cfg.num_shelves)
    { inv := st.inv, pos := st.pos, total_movements := 0, last_source := 0,
      last_dest := 0, last_direction := Direction.right }

/-! ### distribute_items_randomly lemmas -/

theorem placeAttempts_invariant (gen : Gen) (num_shelves cap total : Nat)
    (hpick : ∀ p, gen.pick p < num_shelves) :
    ∀ fuel (s : PlaceSt), s.distribution.length = num_shelves →
      (∀ x ∈ s.distribution, x ≤ cap) →
      s.distribution.sum = s.items_placed → s.items_placed ≤ total →
      ((placeAttempts gen cap total fuel s).distribution.length = num_shelves ∧
       (∀ x ∈ (placeAttempts gen cap total fuel s).distribution, x ≤ cap) ∧
       (placeAttempts gen cap total fuel s).distribution.sum =
         (placeAttempts gen cap total fuel s).items_placed ∧
       (placeAttempts gen cap total fuel s).items_placed ≤ total)
  | 0, s, hlen, hcap, hsum, hle => ⟨hlen, hcap, hsum, hle⟩
  | fuel + 1, s, hlen, hcap, hsum, hle => by
    rw [placeAttempts]
    split
    next hplaced =>
      split
      next hroom =>
        have hidx : gen.pick s.pos < s.distribution.length := by
          rw [hlen]; exact hpick s.pos
        have hss := sum_set_getD s.distribution (gen.pick s.pos)
          (s.distribution.getD (gen.pick s.pos) 0 + 1) hidx
        refine placeAttempts_invariant gen num_shelves cap total hpick fuel
          { distribution := s.distribution.set (gen.pick s.pos)
              (s.distribution.getD (gen.pick s.pos) 0 + 1),
            items_placed := s.items_placed + 1, pos := s.pos + 1 }
          ?_ ?_ ?_ ?_
        · show (s.distribution.set _ _).length = num_shelves
          rw [List.length_set]; exact hlen
        · intro x hx
          rcases List.mem_or_eq_of_mem_set hx with hx' | rfl
          · exact hcap x hx'
          · omega
        · show (s.distribution.set _ _).sum = s.items_placed + 1
          omega
        · show s.items_placed + 1 ≤ total
          omega
      next hroom =>
        exact placeAttempts_invariant gen num_shelves cap total hpick fuel
          { s with pos := s.pos + 1 } hlen hcap hsum hle
    next hplaced => exact ⟨hlen, hcap, hsum, hle⟩

theorem fillSequential_length (cap : Nat) :
    ∀ (l : List Nat) (r : Nat), (fillSequential cap l r).length = l.length
  | [], _ => rfl
  | _ :: rest, r => by
    simp [fillSequential, fillSequential_length cap rest]

theorem fillSequential_cap (cap : Nat) :
    ∀ (l : List Nat) (r : Nat), (∀ x ∈ l, x ≤ cap) →
      ∀ x ∈ fillSequential cap l r, x ≤ cap
  | [], _, _ => by simp [fillSequential]
  | q :: rest, r, hcap => by
    simp only [fillSequential, List.mem_cons]
    rintro x (rfl | hx)
    · have hq : q ≤ cap := hcap q (List.mem_cons_self q rest)
      have : min r (cap - q) ≤ cap - q := Nat.min_le_right _ _
      omega
    · exact fillSequential_cap cap rest _
        (fun y hy => hcap y (List.mem_cons_of_mem _ hy)) x hx

theorem fillSequential_sum (cap : Nat) :
    ∀ (l : List Nat) (r : Nat), (∀ x ∈ l, x ≤ cap) →
      l.sum + r ≤ l.length * cap →
      (fillSequential cap l r).sum = l.sum + r
  | [], r, _, hslack => by
    simp only [List.sum_nil, List.length_nil, Nat.zero_mul] at hslack
    simp [fillSequential]
    omega
  | q :: rest, r, hcap, hslack => by
    have hq : q ≤ cap := hcap q (List.mem_cons_self q rest)
    have hrest_cap : ∀ x ∈ rest, x ≤ cap :=
      fun y hy => hcap y (List.mem_cons_of_mem _ hy)
    have hrest_le : rest.sum ≤ rest.length * cap := by
      have := List.sum_le_card_nsmul rest cap hrest_cap
      simpa [smul_eq_mul, Nat.mul_comm] using this
    have hmul : (rest.length + 1) * cap = rest.length * cap + cap := by ring
    simp only [List.sum_cons, List.length_cons, hmul] at hslack
    have h1 : min r (cap - q) ≤ r := Nat.min_le_left _ _
    have h2 : min r (cap - q) ≤ cap - q := Nat.min_le_right _ _
    have h3 : min r (cap - q) = r ∨ min r (cap - q) = cap - q :=
      min_choice r (cap - q)
    have hrec := fillSequential_sum cap rest (r - min r (cap - q)) hrest_cap
      (by omega)
    simp only [fillSequential, List.sum_cons, hrec]
    omega

theorem distribute_items_randomly_spec (gen : Gen)
    (num_shelves total_items shelf_capacity : Nat)
    (hn : 0 < num_shelves) (hcap : 0 < shelf_capacity)
    (htotal : total_items ≤ num_shelves * shelf_capacity)
    (hpick : ∀ p, gen.pick p < num_shelves) :
    (distribute_items_randomly gen num_shelves total_items
        shelf_capacity).length = num_shelves ∧
    (∀ x ∈ distribute_items_randomly gen num_shelves total_items
        shelf_capacity, x ≤ shelf_capacity) ∧
    (distribute_items_randomly gen num_shelves total_items
        shelf_capacity).sum = total_items := by
  unfold distribute_items_randomly
  split
  next hzero =>
    subst hzero
    refine ⟨by simp, ?_, by simp⟩
    intro x hx
    rw [List.eq_of_mem_replicate hx]
    exact Nat.zero_le _
  next hzero =>
    have hinit := placeAttempts_invariant gen num_shelves shelf_capacity
      total_items hpick (total_items * 100)
      { distribution := List.replicate num_shelves 0, items_placed := 0,
        pos := 0 }
      (by show (List.replicate num_shelves 0).length = num_shelves; simp)
      (by
        intro x hx
        rw [List.eq_of_mem_replicate
          (show x ∈ List.replicate num_shelves 0 from hx)]
        omega)
      (by show (List.replicate num_shelves 0).sum = 0; simp)
      (Nat.zero_le total_items)
    set res := placeAttempts gen shelf_capacity total_items
      (total_items * 100)
      { distribution := List.replicate num_shelves 0, items_placed := 0,
        pos := 0 } with hres
    obtain ⟨hlen, hcap', hsum, hle⟩ := hinit
    split
    next hshort =>
      refine ⟨?_, ?_, ?_⟩
      · rw [fillSequential_length, hlen]
      · exact fillSequential_cap shelf_capacity res.distribution _ hcap'
      · rw [fillSequential_sum shelf_capacity res.distribution
          (total_items - res.items_placed) hcap' (by rw [hsum, hlen]; omega)]
        omega
    next hshort =>
      exact ⟨hlen, hcap', by omega⟩

/-! ### simAfter invariants -/

theorem simAfter_invariant (cfg : SimulatorConfig) (gen : Gen) (hv : cfg.Valid)
    (hpick : ∀ p, gen.pick p < cfg.num_shelves) :
    ∀ n, (simAfter cfg gen n).inv.length = cfg.num_shelves ∧
      (simAfter cfg gen n).inv.sum = cfg.total_items ∧
      (∀ x ∈ (simAfter cfg gen n).inv, x ≤ cfg.shelf_capacity)
  | 0 => by
    have hd := distribute_items_randomly_spec gen cfg.num_shelves
      cfg.total_items cfg.shelf_capacity hv.1 hv.2.1 hv.2.2.1 hpick
    exact ⟨hd.1, hd.2.2, hd.2.1⟩
  | n + 1 => by
    have ih := simAfter_invariant cfg gen hv hpick n
    have hs := step_sum_length cfg gen (simAfter cfg gen n) hv.1 ih.1
    refine ⟨hs.1, ?_, step_cap cfg gen (simAfter cfg gen n) ih.2.2⟩
    show (Simulator.step cfg gen (simAfter cfg gen n)).1.inv.sum =
      cfg.total_items
    rw [hs.2, ih.2.1]

theorem simAfter_current_step (cfg : SimulatorConfig) (gen : Gen) :
    ∀ n, (simAfter cfg gen n).current_step = n
  | 0 => rfl
  | n + 1 => by
    show (Simulator.step cfg gen (simAfter cfg gen n)).1.current_step = n + 1
    rw [step_current_step_eq, simAfter_current_step cfg gen n]

theorem simAfter_trap_mono (cfg : SimulatorConfig) (gen : Gen) (n : Nat)
    (h : (simAfter cfg gen n).trap_active = true) :
    (simAfter cfg gen (n + 1)).trap_active = true := by
  show (Simulator.step cfg gen (simAfter cfg gen n)).1.trap_active = true
  rw [step_trap_eq, h]
  simp

theorem simAfter_step_zero_mono (cfg : SimulatorConfig) (gen : Gen)
    (hm : cfg.shelf_0_mode = Mode.leak_then_trap) (n : Nat)
    (hn : cfg.trap_start_step ≤ n) :
    (simAfter cfg gen n).inv.getD 0 0 ≤
      (simAfter cfg gen (n + 1)).inv.getD 0 0 := by
  show (simAfter cfg gen n).inv.getD 0 0 ≤
    (Simulator.step cfg gen (simAfter cfg gen n)).1.inv.getD 0 0
  exact step_getD_zero cfg gen _
    (Or.inr ⟨hm, by rw [simAfter_current_step]; exact hn⟩)

/-! ### Claims about the simulator -/

/-- C1: for every configuration validated by `SimulatorConfig`, every
generator stream (hence every seed and movement probability), and every
number of ticks, the sum of the quantities over all shelves equals
`total_items` after construction (`n = 0`) and after every `Simulator.step`,
in both normal and leak-then-trap modes. -/
theorem conservation_total_items (cfg : SimulatorConfig) (gen : Gen)
    (hv : cfg.Valid) (hpick : ∀ p, gen.pick p < cfg.num_shelves) (n : Nat) :
    (simAfter cfg gen n).inv.sum = cfg.total_items :=
  (simAfter_invariant cfg gen hv hpick n).2.1

theorem conservation_total_items_witness :
    (simAfter cfgSmall genZero 3).inv.sum = cfgSmall.total_items :=
  conservation_total_items cfgSmall genZero
    (by norm_num [SimulatorConfig.Valid, cfgSmall])
    (fun _ => by norm_num [genZero, cfgSmall]) 3

/-- C2: for every validated configuration and every generator stream, after
construction and after every `Simulator.step` every shelf quantity is at most
`shelf_capacity` (quantities are naturals, hence also non-negative); and an
item movement succeeds precisely when the destination's current quantity is
strictly below `shelf_capacity`. -/
theorem capacity_bounds (cfg : SimulatorConfig) (gen : Gen)
    (hv : cfg.Valid) (hpick : ∀ p, gen.pick p < cfg.num_shelves) (n : Nat) :
    (∀ q ∈ (simAfter cfg gen n).inv, q ≤ cfg.shelf_capacity) ∧
    (∀ (inv : List Nat) (shelf_id dest_shelf_id : Nat),
      (attemptMove cfg inv shelf_id dest_shelf_id).isSome ↔
        inv.getD dest_shelf_id 0 < cfg.shelf_capacity) := by
  refine ⟨(simAfter_invariant cfg gen hv hpick n).2.2, ?_⟩
  intro inv shelf_id dest_shelf_id
  by_cases h : inv.getD dest_shelf_id 0 < cfg.shelf_capacity
  · simp [attemptMove, h]
  · simp [attemptMove, h]

theorem capacity_bounds_witness :
    (∀ q ∈ (simAfter cfgSmall genZero 2).inv, q ≤ cfgSmall.shelf_capacity) ∧
    (∀ (inv : List Nat) (shelf_id dest_shelf_id : Nat),
      (attemptMove cfgSmall inv shelf_id dest_shelf_id).isSome ↔
        inv.getD dest_shelf_id 0 < cfgSmall.shelf_capacity) :=
  capacity_bounds cfgSmall genZero
    (by norm_num [SimulatorConfig.Valid, cfgSmall])
    (fun _ => by norm_num [genZero, cfgSmall]) 2

/-- C3: in leak-then-trap mode, for every tick `n ≥ trap_start_step` the trap
is active during the following step and stays active, and shelf 0's quantity
is non-decreasing from `n` to every later tick `m`. -/
theorem leak_then_trap_monotone (cfg : SimulatorConfig) (gen : Gen)
    (hm : cfg.shelf_0_mode = Mode.leak_then_trap) (n m : Nat)
    (hn : cfg.trap_start_step ≤ n) (hnm : n ≤ m) :
    (simAfter cfg gen (n + 1)).trap_active = true ∧
    ((simAfter cfg gen m).trap_active = true →
      (simAfter cfg gen (m + 1)).trap_active = true) ∧
    (simAfter cfg gen n).inv.getD 0 0 ≤ (simAfter cfg gen m).inv.getD 0 0 := by
  refine ⟨?_, simAfter_trap_mono cfg gen m, ?_⟩
  · show (Simulator.step cfg gen (simAfter cfg gen n)).1.trap_active = true
    rw [step_trap_eq, simAfter_current_step]
    simp [hm, hn]
  · induction m, hnm using Nat.le_induction with
    | base => exact le_refl _
    | succ m hm' ih =>
      exact le_trans ih
        (simAfter_step_zero_mono cfg gen hm m (le_trans hn hm'))

theorem leak_then_trap_monotone_witness :
    (simAfter cfgTrap genZero 1).trap_active = true ∧
    ((simAfter cfgTrap genZero 2).trap_active = true →
      (simAfter cfgTrap genZero 3).trap_active = true) ∧
    (simAfter cfgTrap genZero 0).inv.getD 0 0 ≤
      (simAfter cfgTrap genZero 2).inv.getD 0 0 :=
  leak_then_trap_monotone cfgTrap genZero rfl 0 2 (Nat.le_refl 0)
    (by decide)

/-- C7: for every positive shelf count and capacity and every feasible total,
`distribute_items_randomly` returns, for every generator stream (seed), a
list of `num_shelves` quantities each within capacity summing exactly to
`total_items`; the deterministic fill pass completes whatever the bounded
random phase left unplaced. -/
theorem initial_distribution_correct (gen : Gen)
    (num_shelves total_items shelf_capacity : Nat)
    (hn : 0 < num_shelves) (hcap : 0 < shelf_capacity)
    (htotal : total_items ≤ num_shelves * shelf_capacity)
    (hpick : ∀ p, gen.pick p < num_shelves) :
    (distribute_items_randomly gen num_shelves total_items
        shelf_capacity).length = num_shelves ∧
    (∀ x ∈ distribute_items_randomly gen num_shelves total_items
        shelf_capacity, x ≤ shelf_capacity) ∧
    (distribute_items_randomly gen num_shelves total_items
        shelf_capacity).sum = total_items :=
  distribute_items_randomly_spec gen num_shelves total_items shelf_capacity
    hn hcap htotal hpick

theorem initial_distribution_correct_witness :
    (distribute_items_randomly genOne 2 2 5).length = 2 ∧
    (∀ x ∈ distribute_items_randomly genOne 2 2 5, x ≤ 5) ∧
    (distribute_items_randomly genOne 2 2 5).sum = 2 :=
  initial_distribution_correct genOne 2 2 5 (by decide) (by decide)
    (by decide) (fun _ => by norm_num [genOne])

/-- C10: the leak-then-trap trap is tied to shelf id 0 literally, not to the
configured hidden shelf: with `unobserved_shelf_id ≠ 0`, shelf 0's quantity
is still the non-decreasing one once the trap is due, while on a concrete
run (`cfgTrap`, whose unobserved shelf is 1) the configured unobserved
shelf's quantity strictly decreases after trap activation. -/
theorem trap_tied_to_shelf_zero :
    (∀ (cfg : SimulatorConfig) (gen : Gen) (n : Nat),
      cfg.shelf_0_mode = Mode.leak_then_trap → cfg.unobserved_shelf_id ≠ 0 →
      cfg.trap_start_step ≤ n →
      (simAfter cfg gen n).inv.getD 0 0 ≤
        (simAfter cfg gen (n + 1)).inv.getD 0 0) ∧
    (cfgTrap.shelf_0_mode = Mode.leak_then_trap ∧
     cfgTrap.unobserved_shelf_id ≠ 0 ∧ cfgTrap.Valid ∧
     (simAfter cfgTrap genOne 1).inv.getD cfgTrap.unobserved_shelf_id 0 <
       (simAfter cfgTrap genOne 0).inv.getD cfgTrap.unobserved_shelf_id 0) := by
  constructor
  · intro cfg gen n hm _ hn
    exact simAfter_step_zero_mono cfg gen hm n hn
  · exact ⟨rfl, by decide,
      by norm_num [SimulatorConfig.Valid, cfgTrap], by decide⟩

theorem trap_tied_to_shelf_zero_witness :
    (simAfter cfgTrap genOne 0).inv.getD 0 0 ≤
      (simAfter cfgTrap genOne 1).inv.getD 0 0 :=
  trap_tied_to_shelf_zero.1 cfgTrap genOne 0 rfl (by decide) (Nat.le_refl 0)

/-! ### Kalman filter lemmas -/

theorem measurementR_ge (estimates : List BeliefRecord) :
    10 ≤ measurementR estimates := by
  unfold measurementR
  have h : 0 ≤ (estimates.map (fun r => (r.uncertainty : ℚ))).sum := by
    apply List.sum_nonneg
    intro x hx
    obtain ⟨r, _, rfl⟩ := List.mem_map.mp hx
    positivity
  linarith

theorem kfStep_bounds (q x P z R : ℚ) (hq : 0 ≤ q) (hP : 0 ≤ P)
    (hR : 10 ≤ R) :
    0 ≤ (kfStep q x P z R).1 ∧ (kfStep q x P z R).1 ≤ 1 ∧
      0 ≤ (kfStep q x P z R).2.2 := by
  show 0 ≤ (P + q) / (P + q + R) ∧ (P + q) / (P + q + R) ≤ 1 ∧
    0 ≤ (1 - (P + q) / (P + q + R)) * (P + q)
  have hPp : (0:ℚ) ≤ P + q := by linarith
  have hS : (0:ℚ) < P + q + R := by linarith
  have hK0 : 0 ≤ (P + q) / (P + q + R) := div_nonneg hPp (le_of_lt hS)
  have hK1 : (P + q) / (P + q + R) ≤ 1 := by
    rw [div_le_one hS]; linarith
  exact ⟨hK0, hK1, mul_nonneg (by linarith) hPp⟩

theorem obsAfter_kf_cov_succ (cfg : SimulatorConfig) (sims : Nat → SimState)
    (t : Nat) :
    (obsAfter cfg sims (t + 1)).kf_covariance =
      (kfStep cfg.process_noise_q (obsAfter cfg sims t).kf_state
        (obsAfter cfg sims t).kf_covariance
        (measurementZ (obsAfter cfg sims (t + 1)).estimates)
        (measurementR (obsAfter cfg sims (t + 1)).estimates)).2.2 := rfl

theorem obsAfter_cov_nonneg (cfg : SimulatorConfig) (sims : Nat → SimState)
    (hq : 0 ≤ cfg.process_noise_q) :
    ∀ t, 0 ≤ (obsAfter cfg sims t).kf_covariance
  | 0 => by
    show (0:ℚ) ≤ 1000
    norm_num
  | t + 1 => by
    rw [obsAfter_kf_cov_succ]
    exact (kfStep_bounds _ _ _ _ _ hq (obsAfter_cov_nonneg cfg sims hq t)
      (measurementR_ge _)).2.2

/-- C4: with `process_noise_q ≥ 0`, starting from `P = 1000` at
construction, the gain computed by every call to `Observer.observe` lies in
`[0, 1]`, the covariance stays non-negative after every update, and the
updated covariance is exactly `(1 - K) * P_pred` for that gain. -/
theorem kalman_gain_covariance_bounds (cfg : SimulatorConfig)
    (sims : Nat → SimState) (hq : 0 ≤ cfg.process_noise_q) (t : Nat) :
    (obsAfter cfg sims 0).kf_covariance = 1000 ∧
    0 ≤ (obsAfter cfg sims t).kf_covariance ∧
    0 ≤ observeGainAt cfg sims t ∧ observeGainAt cfg sims t ≤ 1 ∧
    (obsAfter cfg sims (t + 1)).kf_covariance =
      (1 - observeGainAt cfg sims t) *
        ((obsAfter cfg sims t).kf_covariance + cfg.process_noise_q) := by
  have hb := kfStep_bounds cfg.process_noise_q
    (obsAfter cfg sims t).kf_state (obsAfter cfg sims t).kf_covariance
    (measurementZ (obsAfter cfg sims (t + 1)).estimates)
    (measurementR (obsAfter cfg sims (t + 1)).estimates) hq
    (obsAfter_cov_nonneg cfg sims hq t) (measurementR_ge _)
  exact ⟨rfl, obsAfter_cov_nonneg cfg sims hq t, hb.1, hb.2.1, rfl⟩

theorem kalman_gain_covariance_bounds_witness :
    (obsAfter cfgTen (fun _ => simTen) 0).kf_covariance = 1000 ∧
    0 ≤ (obsAfter cfgTen (fun _ => simTen) 2).kf_covariance ∧
    0 ≤ observeGainAt cfgTen (fun _ => simTen) 2 ∧
    observeGainAt cfgTen (fun _ => simTen) 2 ≤ 1 ∧
    (obsAfter cfgTen (fun _ => simTen) 3).kf_covariance =
      (1 - observeGainAt cfgTen (fun _ => simTen) 2) *
        ((obsAfter cfgTen (fun _ => simTen) 2).kf_covariance +
          cfgTen.process_noise_q) :=
  kalman_gain_covariance_bounds cfgTen (fun _ => simTen)
    (by norm_num [cfgTen]) 2

/-! ### Round-robin lemmas -/

theorem mod_add_solution (a m j : Nat) (hm : 0 < m) (hj : j < m) :
    (a + (j + m - a % m) % m) % m = j := by
  have hr : a % m < m := Nat.mod_lt a hm
  have hq : m * (a / m) + a % m = a := Nat.div_add_mod a m
  rw [Nat.add_mod_mod]
  have h : a + (j + m - a % m) = m * (a / m) + (j + m) := by omega
  rw [h, Nat.mul_add_mod, Nat.add_mod_right, Nat.mod_eq_of_lt hj]

theorem mod_add_inj (m a i1 i2 : Nat) (h1 : i1 < m) (h2 : i2 < m)
    (h : (a + i1) % m = (a + i2) % m) : i1 = i2 := by
  have hmod := Nat.ModEq.add_left_cancel' a h
  have e1 := Nat.mod_eq_of_lt h1
  have e2 := Nat.mod_eq_of_lt h2
  unfold Nat.ModEq at hmod
  omega

theorem length_filter_unique {α : Type} (p : α → Bool)
    (l : List α) (hl : l.Nodup) (a : α) (ha : a ∈ l) (hpa : p a = true)
    (huniq : ∀ b ∈ l, p b = true → b = a) : (l.filter p).length = 1 := by
  have hmem : a ∈ l.filter p := List.mem_filter.mpr ⟨ha, hpa⟩
  have hall : ∀ b ∈ l.filter p, b = a := fun b hb =>
    huniq b (List.mem_of_mem_filter hb) (List.of_mem_filter hb)
  have hnd : (l.filter p).Nodup := hl.filter p
  rcases hfp : l.filter p with _ | ⟨x, _ | ⟨y, t⟩⟩
  · rw [hfp] at hmem
    exact absurd hmem (List.not_mem_nil a)
  · rfl
  · exfalso
    rw [hfp] at hall hnd
    have hx : x = a := hall x (List.mem_cons_self x _)
    have hy : y = a := hall y (List.mem_cons_of_mem _ (List.mem_cons_self y t))
    rw [hx, hy] at hnd
    simp at hnd

theorem countP_range_mod_eq_one (m j a : Nat) (hm : 0 < m) (hj : j < m) :
    ((List.range m).filter (fun i => decide ((a + i) % m = j))).length = 1 := by
  apply length_filter_unique _ (List.range m) (List.nodup_range m)
    ((j + m - a % m) % m)
  · exact List.mem_range.mpr (Nat.mod_lt _ hm)
  · exact decide_eq_true (mod_add_solution a m j hm hj)
  · intro b hb hpb
    exact mod_add_inj m a b _ (List.mem_range.mp hb) (Nat.mod_lt _ hm)
      ((of_decide_eq_true hpb).trans (mod_add_solution a m j hm hj).symm)

theorem countP_range_mul_mod (m j : Nat) (hm : 0 < m) (hj : j < m) :
    ∀ (k a : Nat), List.countP (fun i => decide ((a + i) % m = j))
      (List.range (k * m)) = k
  | 0, a => by simp
  | k + 1, a => by
    have hsplit : (k + 1) * m = k * m + m := by ring
    rw [hsplit, List.range_add, List.countP_append, List.countP_map]
    have h1 : List.countP (fun i => decide ((a + i) % m = j))
        (List.range (k * m)) = k := countP_range_mul_mod m j hm hj k a
    have he : ∀ i ∈ List.range m,
        (((fun i => decide ((a + i) % m = j)) ∘ (fun i => k * m + i)) i = true ↔
         (fun i => decide ((a + k * m + i) % m = j)) i = true) := by
      intro i _
      simp only [Function.comp_apply, decide_eq_true_eq]
      rw [Nat.add_assoc]
    rw [h1, List.countP_congr he, List.countP_eq_length_filter]
    rw [countP_range_mod_eq_one m j (a + k * m) hm hj]

theorem observableShelves_nodup (cfg : SimulatorConfig) :
    (observableShelves cfg).Nodup := (List.nodup_range _).filter _

theorem obsAfter_cursor (cfg : SimulatorConfig) (sims : Nat → SimState) :
    ∀ t, (obsAfter cfg sims t).current_observation_index =
      t % (observableShelves cfg).length
  | 0 => (Nat.zero_mod _).symm
  | t + 1 => by
    show ((obsAfter cfg sims t).current_observation_index + 1) %
        (observableShelves cfg).length =
      (t + 1) % (observableShelves cfg).length
    rw [obsAfter_cursor cfg sims t, Nat.mod_add_mod]

theorem observedShelfAt_eq (cfg : SimulatorConfig) (sims : Nat → SimState)
    (t : Nat) :
    observedShelfAt cfg sims t =
      (observableShelves cfg).getD
        (t % (observableShelves cfg).length) 0 := by
  show (observableShelves cfg).getD
    (obsAfter cfg sims t).current_observation_index 0 = _
  rw [obsAfter_cursor cfg sims t]

/-- C5: over any `k * (num observable shelves)` consecutive calls to
`Observer.observe` each observable shelf is reported exactly `k` times (the
fixed cyclic order being the cursor advance by 1 mod the schedule length);
and in the concrete 10-shelf configuration with hidden shelf 0 the first
nine observations visit shelves 1..9 in ascending order and the tenth
revisits shelf 1. -/
theorem round_robin_completeness (cfg : SimulatorConfig)
    (sims : Nat → SimState) (hm : 0 < (observableShelves cfg).length)
    (k t0 : Nat) :
    (∀ s ∈ observableShelves cfg,
      ((List.range (k * (observableShelves cfg).length)).filter
        (fun i => observedShelfAt cfg sims (t0 + i) == s)).length = k) ∧
    (List.range 10).map (observedShelfAt cfgTen (fun _ => simTen)) =
      [1, 2, 3, 4, 5, 6, 7, 8, 9, 1] := by
  constructor
  · intro s hs
    obtain ⟨⟨j, hj⟩, hsj⟩ := List.mem_iff_get.mp hs
    rw [← List.countP_eq_length_filter]
    have hcond : ∀ i ∈ List.range (k * (observableShelves cfg).length),
        ((observedShelfAt cfg sims (t0 + i) == s) = true ↔
         decide ((t0 + i) % (observableShelves cfg).length = j) = true) := by
      intro i _
      rw [beq_iff_eq, decide_eq_true_eq, observedShelfAt_eq cfg sims (t0 + i)]
      have hlt : (t0 + i) % (observableShelves cfg).length <
          (observableShelves cfg).length := Nat.mod_lt _ hm
      rw [List.getD_eq_getElem _ _ hlt]
      constructor
      · intro he
        have hget : (observableShelves cfg).get
            ⟨(t0 + i) % (observableShelves cfg).length, hlt⟩ =
            (observableShelves cfg).get ⟨j, hj⟩ := by
          rw [List.get_eq_getElem, List.get_eq_getElem]
          rw [he, ← hsj, List.get_eq_getElem]
        have := (observableShelves_nodup cfg).get_inj_iff.mp hget
        exact congrArg Fin.val this
      · intro he
        rw [← hsj, List.get_eq_getElem]
        congr 1
    rw [List.countP_congr hcond]
    exact countP_range_mul_mod (observableShelves cfg).length j hm hj k t0
  · decide

theorem round_robin_completeness_witness :
    (∀ s ∈ observableShelves cfgTen,
      ((List.range (2 * (observableShelves cfgTen).length)).filter
        (fun i => observedShelfAt cfgTen (fun _ => simTen) (3 + i) == s)).length
        = 2) ∧
    (List.range 10).map (observedShelfAt cfgTen (fun _ => simTen)) =
      [1, 2, 3, 4, 5, 6, 7, 8, 9, 1] :=
  round_robin_completeness cfgTen (fun _ => simTen) (by decide) 2 3

/-! ### Staleness dynamics -/

theorem updateEstimates_mem (estimates : List BeliefRecord)
    (sid tq step : Nat) (r : BeliefRecord) (hr : r ∈ estimates) :
    (r.shelf_id = sid →
      ({ shelf_id := r.shelf_id, estimated_quantity := tq,
         last_observed_step := (step : Int), uncertainty := 0 } :
        BeliefRecord) ∈ updateEstimates estimates sid tq step) ∧
    (r.shelf_id ≠ sid →
      ({ r with uncertainty := r.uncertainty + 1 } : BeliefRecord) ∈
        updateEstimates estimates sid tq step) := by
  constructor
  · intro heq
    refine List.mem_map.mpr ⟨r, hr, ?_⟩
    rw [if_pos heq, heq]
  · intro hne
    refine List.mem_map.mpr ⟨r, hr, ?_⟩
    rw [if_neg hne]

/-- C6: every belief record starts at `estimated_quantity 0`, `staleness 0`,
`last_observed_tick -1`; on each call to `Observer.observe` the observed
shelf's record is refreshed with the true quantity read from the simulator,
the current tick and staleness 0, while every other tracked record's
staleness is incremented by exactly 1 (`observe` is the only staleness
mutator in the embedding). -/
theorem staleness_dynamics (cfg : SimulatorConfig) (sim : SimState)
    (current_step : Nat) (obs : ObsState) :
    (∀ r ∈ (Observer.init cfg).estimates,
      r.estimated_quantity = 0 ∧ r.uncertainty = 0 ∧
        r.last_observed_step = -1) ∧
    (∀ r ∈ obs.estimates,
      (r.shelf_id =
          (Observer.observe cfg sim current_step obs).2.observed_shelf →
        ({ shelf_id := r.shelf_id,
           estimated_quantity :=
             (Observer.observe cfg sim current_step obs).2.true_quantity,
           last_observed_step := (current_step : Int),
           uncertainty := 0 } : BeliefRecord) ∈
          (Observer.observe cfg sim current_step obs).1.estimates) ∧
      (r.shelf_id ≠
          (Observer.observe cfg sim current_step obs).2.observed_shelf →
        ({ r with uncertainty := r.uncertainty + 1 } : BeliefRecord) ∈
          (Observer.observe cfg sim current_step obs).1.estimates)) := by
  constructor
  · intro r hr
    obtain ⟨sid, _, rfl⟩ := List.mem_map.mp hr
    exact ⟨rfl, rfl, rfl⟩
  · intro r hr
    exact updateEstimates_mem obs.estimates
      ((observableShelves cfg).getD obs.current_observation_index 0)
      (Simulator.get_quantity sim
        ((observableShelves cfg).getD obs.current_observation_index 0))
      current_step r hr

theorem staleness_dynamics_witness :
    ({ shelf_id := 1, estimated_quantity := 0,
       last_observed_step := (0 : Int), uncertainty := 0 } : BeliefRecord) ∈
      (Observer.observe cfgTen simTen 0 (Observer.init cfgTen)).1.estimates ∧
    ({ shelf_id := 2, estimated_quantity := 0,
       last_observed_step := (-1 : Int), uncertainty := 1 } : BeliefRecord) ∈
      (Observer.observe cfgTen simTen 0 (Observer.init cfgTen)).1.estimates :=
  ⟨((staleness_dynamics cfgTen simTen 0 (Observer.init cfgTen)).2
      ⟨1, 0, -1, 0⟩ (by decide)).1 (by decide),
   ((staleness_dynamics cfgTen simTen 0 (Observer.init cfgTen)).2
      ⟨2, 0, -1, 0⟩ (by decide)).2 (by decide)⟩

/-! ### Determinism -/

/-- C8: two `SimulationRunner` instances constructed from identical
configurations and identical generator streams (seeds), run for the same
number of steps, produce identical event logs and identical final ground
truth and belief state. -/
theorem determinism_run (cfg1 cfg2 : SimulatorConfig) (gen1 gen2 : Gen)
    (num_steps : Nat) (hc : cfg1 = cfg2) (hg : gen1 = gen2) :
    SimulationRunner.run cfg1 gen1 num_steps =
      SimulationRunner.run cfg2 gen2 num_steps := by
  subst hc
  subst hg
  rfl

theorem determinism_run_witness :
    SimulationRunner.run cfgSmall genOne 2 =
      SimulationRunner.run cfgSmall genOne 2 :=
  determinism_run cfgSmall cfgSmall genOne genOne 2 rfl rfl

/-! ### Configuration validation -/

/-- C9: `RawConfig.validate` succeeds exactly when every configuration
constraint holds; any violation (infeasible totals, out-of-range ids or
probabilities, invalid mode, negative noise) yields an immediate
`Except.error` naming the violated constraint, so no run is constructed. -/
theorem config_validation (c : RawConfig) :
    c.validate = Except.ok () ↔
      (0 < c.num_shelves ∧ 0 < c.shelf_capacity ∧ 0 ≤ c.total_items ∧
       c.total_items ≤ c.num_shelves * c.shelf_capacity ∧
       0 ≤ c.unobserved_shelf_id ∧
       c.unobserved_shelf_id < c.num_shelves ∧
       0 ≤ c.movement_probability ∧ c.movement_probability ≤ 1 ∧
       (c.shelf_0_mode = "normal" ∨ c.shelf_0_mode = "leak_then_trap") ∧
       0 ≤ c.trap_start_step ∧ 0 ≤ c.process_noise_q) := by
  unfold RawConfig.validate
  by_cases h1 : c.num_shelves ≤ 0
  · rw [if_pos h1]
    exact iff_of_false (by simp) (by rintro ⟨hA, -⟩; omega)
  rw [if_neg h1]
  by_cases h2 : c.shelf_capacity ≤ 0
  · rw [if_pos h2]
    exact iff_of_false (by simp) (by rintro ⟨-, hB, -⟩; omega)
  rw [if_neg h2]
  by_cases h3 : c.total_items < 0
  · rw [if_pos h3]
    exact iff_of_false (by simp) (by rintro ⟨-, -, hC, -⟩; omega)
  rw [if_neg h3]
  by_cases h4 : c.num_shelves * c.shelf_capacity < c.total_items
  · rw [if_pos h4]
    exact iff_of_false (by simp) (by rintro ⟨-, -, -, hD, -⟩; omega)
  rw [if_neg h4]
  by_cases h5 : 0 ≤ c.unobserved_shelf_id ∧
      c.unobserved_shelf_id < c.num_shelves
  · rw [if_neg (not_not_intro h5)]
    by_cases h6 : 0 ≤ c.movement_probability ∧ c.movement_probability ≤ 1
    · rw [if_neg (not_not_intro h6)]
      by_cases h7 : c.shelf_0_mode ≠ "normal" ∧
          c.shelf_0_mode ≠ "leak_then_trap"
      · rw [if_pos h7]
        exact iff_of_false (by simp)
          (by
            rintro ⟨-, -, -, -, -, -, -, -, hI, -⟩
            rcases hI with hI | hI
            · exact h7.1 hI
            · exact h7.2 hI)
      · rw [if_neg h7]
        by_cases h8 : c.trap_start_step < 0
        · rw [if_pos h8]
          exact iff_of_false (by simp)
            (by rintro ⟨-, -, -, -, -, -, -, -, -, hJ, -⟩; omega)
        rw [if_neg h8]
        by_cases h9 : c.process_noise_q < 0
        · rw [if_pos h9]
          exact iff_of_false (by simp)
            (by
              rintro ⟨-, -, -, -, -, -, -, -, -, -, hK⟩
              linarith)
        · rw [if_neg h9]
          refine iff_of_true rfl
            ⟨by omega, by omega, by omega, by omega, h5.1, h5.2, h6.1, h6.2,
              ?_, by omega, not_lt.mp h9⟩
          rcases not_and_or.mp h7 with h | h
          · exact Or.inl (not_not.mp h)
          · exact Or.inr (not_not.mp h)
    · rw [if_pos h6]
      exact iff_of_false (by simp)
        (by rintro ⟨-, -, -, -, -, -, hG, hH, -⟩; exact h6 ⟨hG, hH⟩)
  · rw [if_pos h5]
    exact iff_of_false (by simp)
      (by rintro ⟨-, -, -, -, hE, hF, -⟩; exact h5 ⟨hE, hF⟩)

theorem config_validation_witness :
    rawOverfull.validate ≠ Except.ok () ∧
    rawValid.validate = Except.ok () := by
  constructor
  · intro h
    have hP := (config_validation rawOverfull).mp h
    simp [rawOverfull] at hP
  · apply (config_validation rawValid).mpr
    norm_num [rawValid]

end InventorySim
